import Mathlib

set_option maxHeartbeats 1000000

/-! Shallow embedding of the user-notification fan-out and read-tracking core of
the lemuel-eduspace backend (`app/services/user_notification_service.py`,
`app/models/user_notification.py`, `app/schemas/user_notification.py`).

The relational store is embedded as lists of rows.  SQLAlchemy selects become
list filters, the composite-unique constraint on `(user_id, notification_id)`
becomes an explicit check performed at commit time, and `HTTPException` /
`IntegrityError` become an `Except` error type.  Each write operation is given
in a two-state form `op_at dbRead dbCommit`: all selects run against `dbRead`
and the commit runs against `dbCommit`.  A sequential (non-interleaved) call is
`op db := op_at db db`; a racing interleaving is modelled by a `dbCommit` that
contains rows inserted by a concurrent call after this call's selects ran.  An
`HTTPException` raised before `db.commit()` leaves the store unchanged (the
session is never committed), which the `apply…` wrappers make explicit. -/

/-- `UserRole` enum from `app/models/user.py`. -/
inductive UserRole where
  | admin
  | teacher
  | student
  | parent
  | student_parent
deriving DecidableEq, Repr

/-- `NotificationType` enum from `app/models/notification.py`. -/
inductive NotificationType where
  | general
  | announcement
  | assignment
  | event
  | payment
deriving DecidableEq, Repr

/-- The five notification types (the SQL enum's value set). -/
def NotificationType.all : List NotificationType :=
  [.general, .announcement, .assignment, .event, .payment]

/-- A `users` row, restricted to the columns the fan-out core consults. -/
structure User where
  id : Nat
  role : UserRole
deriving DecidableEq, Repr

/-- A `notifications` row, restricted to the columns the fan-out core consults.
`created_at` is an abstract timestamp. -/
structure Notification where
  id : Nat
  type : NotificationType
  created_at : Nat
deriving DecidableEq, Repr

/-- A `user_notifications` join row (`app/models/user_notification.py`):
integer primary key, the two foreign keys, `is_read` defaulting to false and
nullable `read_at`. -/
structure UserNotification where
  id : Nat
  user_id : Nat
  notification_id : Nat
  is_read : Bool
  read_at : Option Nat
deriving DecidableEq, Repr

/-- The `(user_id, notification_id)` key governed by the composite
`UniqueConstraint('user_id', 'notification_id')`. -/
def pairKey (r : UserNotification) : Nat × Nat :=
  (r.user_id, r.notification_id)

/-- The composite-uniqueness invariant: at most one join row per
`(user_id, notification_id)` pair. -/
def pairUnique (rows : List UserNotification) : Prop :=
  (rows.map pairKey).Nodup

instance (rows : List UserNotification) : Decidable (pairUnique rows) :=
  inferInstanceAs (Decidable (rows.map pairKey).Nodup)

/-- The relational store visible to the fan-out core.  `next_id` models the
autoincrement counter of the `user_notifications` primary key. -/
structure DB where
  users : List User
  notifications : List Notification
  user_notifications : List UserNotification
  next_id : Nat
deriving DecidableEq, Repr

/-- Whether a user row with the given id exists. -/
def userExists (db : DB) (uid : Nat) : Bool :=
  db.users.any (fun u => u.id == uid)

/-- Whether a notification row with the given id exists. -/
def notifExists (db : DB) (nid : Nat) : Bool :=
  db.notifications.any (fun n => n.id == nid)

/-- Whether the store already holds a join row for the pair `(u, n)`. -/
def hasPair (store : List UserNotification) (u n : Nat) : Bool :=
  store.any (fun s => s.user_id == u && s.notification_id == n)

/-- The structured content of the `HTTPException` 404 details raised by the
service (the `detail` f-strings, with the enumerated ids made explicit):
`notificationNotFound` is the bare string `Notification not found`,
`notificationsNotFound ids` is `Notifications not found: {ids}`,
`usersNotFound ids` is `Users not found: {ids}`, and
`noUsersWithRoles roles` is `No users found with roles: {roles}`. -/
inductive ErrDetail where
  | notificationNotFound
  | notificationsNotFound (ids : List Nat)
  | usersNotFound (ids : List Nat)
  | noUsersWithRoles (roles : List UserRole)
deriving DecidableEq, Repr

/-- The identifiers enumerated inside an error detail (empty for the bare
`Notification not found` message, which carries no id). -/
def ErrDetail.mentionedIds : ErrDetail → List Nat
  | .notificationNotFound => []
  | .notificationsNotFound ids => ids
  | .usersNotFound ids => ids
  | .noUsersWithRoles _ => []

/-- Errors escaping a service call: a 404 `HTTPException`, or an uncaught
storage `IntegrityError` (the service has no exception handler, so a
unique-constraint rejection at commit time propagates to the caller). -/
inductive ServiceError where
  | notFound (detail : ErrDetail)
  | integrityError
deriving DecidableEq, Repr

/-- Equality of service call results is decidable, so concrete runs of the
operations can be checked by evaluation. -/
instance {e a : Type} [DecidableEq e] [DecidableEq a] : DecidableEq (Except e a)
  | .error x, .error y =>
    if h : x = y then .isTrue (by rw [h]) else .isFalse (by intro hc; cases hc; exact h rfl)
  | .error _, .ok _ => .isFalse (by intro hc; cases hc)
  | .ok _, .error _ => .isFalse (by intro hc; cases hc)
  | .ok x, .ok y =>
    if h : x = y then .isTrue (by rw [h]) else .isFalse (by intro hc; cases hc; exact h rfl)

/-- Request body of the direct assignment endpoint
(`UserNotificationCreate` in `app/schemas/user_notification.py`). -/
structure UserNotificationCreate where
  notification_id : Nat
  user_ids : List Nat
deriving DecidableEq, Repr

/-- Request body of the bulk cross-product endpoint
(`UserNotificationBulkCreate`). -/
structure UserNotificationBulkCreate where
  notification_ids : List Nat
  user_ids : List Nat
deriving DecidableEq, Repr

/-- Request body of mark-read (`UserNotificationMarkRead`). -/
structure UserNotificationMarkRead where
  notification_ids : List Nat
deriving DecidableEq, Repr

/-- Request body of assign-by-role (`UserNotificationAssignByRole`).  The
pydantic schema carries role name strings validated against the fixed enum and
deduplicated; the service converts them with `UserRole(role)`, so a validated
request is embedded directly as a list of enum values. -/
structure UserNotificationAssignByRole where
  notification_id : Nat
  roles : List UserRole
deriving DecidableEq, Repr

/-- The `validate_user_ids` pydantic validator: rejects an empty list and more
than 1000 entries, and returns `list(set(v))` (deduplication; Python's set
order is arbitrary, embedded as `dedup`). -/
def validate_user_ids (v : List Nat) : Except String (List Nat) :=
  if v.length = 0 then .error "At least one user ID must be provided"
  else if v.length > 1000 then
    .error "Cannot assign notification to more than 1000 users at once"
  else .ok v.dedup

/-- The `validate_notification_ids` validator of the bulk schema: rejects an
empty list and more than 100 entries, and deduplicates. -/
def validate_notification_ids (v : List Nat) : Except String (List Nat) :=
  if v.length = 0 then .error "At least one notification ID must be provided"
  else if v.length > 100 then
    .error "Cannot assign more than 100 notifications at once"
  else .ok v.dedup

/-- Rows created by the insert loop: one fresh autoincremented id per
`(user_id, notification_id)` pair, `is_read` false, `read_at` null. -/
def mkRows : Nat → List (Nat × Nat) → List UserNotification
  | _, [] => []
  | nid, (u, n) :: rest =>
    { id := nid, user_id := u, notification_id := n,
      is_read := false, read_at := none } :: mkRows (nid + 1) rest

/-- Commit of a batch of pending inserts.  The storage layer enforces the
composite-unique constraint: an insert whose `(user_id, notification_id)` pair
is already present is rejected with an `IntegrityError`, which the service does
not catch. -/
def commitInserts : List UserNotification → List UserNotification →
    Except ServiceError (List UserNotification)
  | store, [] => .ok store
  | store, r :: rest =>
    if hasPair store r.user_id r.notification_id then .error .integrityError
    else commitInserts (store ++ [r]) rest

/-- `UserNotificationService.assign_notification_to_users`, two-state form:
selects run on `dbRead`, the commit on `dbCommit`.  Checks the notification
exists (bare 404 otherwise), checks which users exist (404 enumerating
`set(user_ids) - set(existing_user_ids)` if any is missing), queries existing
assignments for this notification among the given users, and inserts a row for
each user id in `set(user_ids) - set(existing_assignment_user_ids)`.  Returns
the created rows and `len(existing_assignment_user_ids)` as the skipped count. -/
def assign_notification_to_users_at (dbRead dbCommit : DB)
    (assignment_data : UserNotificationCreate) :
    Except ServiceError (DB × List UserNotification × Nat) :=
  match dbRead.notifications.find? (fun n => n.id == assignment_data.notification_id) with
  | none => .error (.notFound .notificationNotFound)
  | some _ =>
    let existing_users := dbRead.users.filter
      (fun u => assignment_data.user_ids.contains u.id)
    let existing_user_ids := existing_users.map (fun u => u.id)
    let missing_user_ids := assignment_data.user_ids.filter
      (fun uid => !existing_user_ids.contains uid)
    if missing_user_ids ≠ [] then
      .error (.notFound (.usersNotFound missing_user_ids))
    else
      let existing_assignments := dbRead.user_notifications.filter
        (fun r => r.notification_id == assignment_data.notification_id &&
          assignment_data.user_ids.contains r.user_id)
      let existing_assignment_user_ids := existing_assignments.map (fun r => r.user_id)
      let new_user_ids := assignment_data.user_ids.filter
        (fun uid => !existing_assignment_user_ids.contains uid)
      let newRows := mkRows dbCommit.next_id
        (new_user_ids.map (fun u => (u, assignment_data.notification_id)))
      match commitInserts dbCommit.user_notifications newRows with
      | .error e => .error e
      | .ok store =>
        .ok ({ dbCommit with
                user_notifications := store,
                next_id := dbCommit.next_id + newRows.length },
             newRows, existing_assignment_user_ids.length)

/-- Sequential (non-interleaved) `assign_notification_to_users`. -/
def assign_notification_to_users (db : DB) (assignment_data : UserNotificationCreate) :
    Except ServiceError (DB × List UserNotification × Nat) :=
  assign_notification_to_users_at db db assignment_data

/-- The nested insert loop of `bulk_assign_notifications_to_users`, over the
candidate pairs in loop order (outer loop `user_ids`, inner loop
`notification_ids`): pairs not in `existing_pairs` become inserts, pairs
already present increment `skipped_count`. -/
def bulkLoop (existing_pairs : List (Nat × Nat)) :
    List (Nat × Nat) → List (Nat × Nat) × Nat
  | [] => ([], 0)
  | p :: rest =>
    let (ns, k) := bulkLoop existing_pairs rest
    if existing_pairs.contains p then (ns, k + 1) else (p :: ns, k)

/-- `UserNotificationService.bulk_assign_notifications_to_users`, two-state
form.  Checks all notifications exist (404 enumerating the missing ids — users
are not checked in that case), then all users (404 enumerating the missing
ids), then runs one batched query for rows with `notification_id ∈ set` and
`user_id ∈ set` and reduces it in memory to the set of exact
`(user_id, notification_id)` pairs, then inserts `candidate − existing` and
counts the candidates already present as skipped. -/
def bulk_assign_notifications_to_users_at (dbRead dbCommit : DB)
    (bulk_data : UserNotificationBulkCreate) :
    Except ServiceError (DB × List UserNotification × Nat) :=
  let existing_notifications := dbRead.notifications.filter
    (fun n => bulk_data.notification_ids.contains n.id)
  let existing_notification_ids := existing_notifications.map (fun n => n.id)
  let missing_notification_ids := bulk_data.notification_ids.filter
    (fun nid => !existing_notification_ids.contains nid)
  if missing_notification_ids ≠ [] then
    .error (.notFound (.notificationsNotFound missing_notification_ids))
  else
    let existing_users := dbRead.users.filter
      (fun u => bulk_data.user_ids.contains u.id)
    let existing_user_ids := existing_users.map (fun u => u.id)
    let missing_user_ids := bulk_data.user_ids.filter
      (fun uid => !existing_user_ids.contains uid)
    if missing_user_ids ≠ [] then
      .error (.notFound (.usersNotFound missing_user_ids))
    else
      let existing_assignments := dbRead.user_notifications.filter
        (fun r => bulk_data.notification_ids.contains r.notification_id &&
          bulk_data.user_ids.contains r.user_id)
      let existing_pairs := existing_assignments.map pairKey
      let candidates := bulk_data.user_ids.flatMap
        (fun u => bulk_data.notification_ids.map (fun n => (u, n)))
      let (new_pairs, skipped_count) := bulkLoop existing_pairs candidates
      let newRows := mkRows dbCommit.next_id new_pairs
      match commitInserts dbCommit.user_notifications newRows with
      | .error e => .error e
      | .ok store =>
        .ok ({ dbCommit with
                user_notifications := store,
                next_id := dbCommit.next_id + newRows.length },
             newRows, skipped_count)

/-- Sequential `bulk_assign_notifications_to_users`. -/
def bulk_assign_notifications_to_users (db : DB)
    (bulk_data : UserNotificationBulkCreate) :
    Except ServiceError (DB × List UserNotification × Nat) :=
  bulk_assign_notifications_to_users_at db db bulk_data

/-- `UserNotificationService.assign_notification_by_role`, two-state form.
Checks the notification exists (bare 404 otherwise), resolves every user whose
role is in the requested role set (404 naming the roles when none match), then
reconciles and inserts exactly as the direct assignment does. -/
def assign_notification_by_role_at (dbRead dbCommit : DB)
    (assignment_data : UserNotificationAssignByRole) :
    Except ServiceError (DB × List UserNotification × Nat) :=
  match dbRead.notifications.find? (fun n => n.id == assignment_data.notification_id) with
  | none => .error (.notFound .notificationNotFound)
  | some _ =>
    let users := dbRead.users.filter (fun u => assignment_data.roles.contains u.role)
    if users = [] then
      .error (.notFound (.noUsersWithRoles assignment_data.roles))
    else
      let user_ids := users.map (fun u => u.id)
      let existing_assignments := dbRead.user_notifications.filter
        (fun r => r.notification_id == assignment_data.notification_id &&
          user_ids.contains r.user_id)
      let existing_assignment_user_ids := existing_assignments.map (fun r => r.user_id)
      let new_user_ids := user_ids.filter
        (fun uid => !existing_assignment_user_ids.contains uid)
      let newRows := mkRows dbCommit.next_id
        (new_user_ids.map (fun u => (u, assignment_data.notification_id)))
      match commitInserts dbCommit.user_notifications newRows with
      | .error e => .error e
      | .ok store =>
        .ok ({ dbCommit with
                user_notifications := store,
                next_id := dbCommit.next_id + newRows.length },
             newRows, existing_assignment_user_ids.length)

/-- Sequential `assign_notification_by_role`. -/
def assign_notification_by_role (db : DB)
    (assignment_data : UserNotificationAssignByRole) :
    Except ServiceError (DB × List UserNotification × Nat) :=
  assign_notification_by_role_at db db assignment_data

/-- The row update performed by `mark_notifications_as_read`'s batched
`UPDATE ... WHERE id IN unread_ids`: set `is_read` and `read_at` on the rows
whose primary key is in `unread_ids`, leave every other row alone. -/
def markRowById (unread_ids : List Nat) (now : Nat) (r : UserNotification) :
    UserNotification :=
  if unread_ids.contains r.id then { r with is_read := true, read_at := some now }
  else r

/-- `UserNotificationService.mark_notifications_as_read`: select the user's
unread join rows among the given notification ids, count all of the user's
rows among those ids, derive `already_read_count = total - unread`, and update
the selected rows (by primary key) to read with `read_at = now`.  Returns the
new store with `(marked_read_count, already_read_count)`.  Join rows that do
not exist for the user are simply absent from both counts. -/
def mark_notifications_as_read (db : DB) (user_id : Nat)
    (read_data : UserNotificationMarkRead) (now : Nat) : DB × Nat × Nat :=
  let unread_assignments := db.user_notifications.filter
    (fun r => r.user_id == user_id &&
      read_data.notification_ids.contains r.notification_id && r.is_read == false)
  let total_count := (db.user_notifications.filter
    (fun r => r.user_id == user_id &&
      read_data.notification_ids.contains r.notification_id)).length
  let already_read_count := total_count - unread_assignments.length
  let unread_ids := unread_assignments.map (fun r => r.id)
  let store := db.user_notifications.map (markRowById unread_ids now)
  ({ db with user_notifications := store },
   unread_assignments.length, already_read_count)

/-- The row update performed by `mark_all_as_read`'s
`UPDATE ... WHERE user_id = u AND is_read = false`. -/
def markRowAllRead (user_id now : Nat) (r : UserNotification) : UserNotification :=
  if r.user_id == user_id && r.is_read == false then
    { r with is_read := true, read_at := some now }
  else r

/-- `UserNotificationService.mark_all_as_read`: one conditional update turning
every unread row of the user read with `read_at = now`; returns the new store
and the update's rowcount (the number of rows that matched the predicate). -/
def mark_all_as_read (db : DB) (user_id : Nat) (now : Nat) : DB × Nat :=
  let store := db.user_notifications.map (markRowAllRead user_id now)
  let rowcount := (db.user_notifications.filter
    (fun r => r.user_id == user_id && r.is_read == false)).length
  ({ db with user_notifications := store }, rowcount)

/-- Result shape of `get_user_notification_stats`. -/
structure UserNotificationStats where
  total_notifications : Nat
  unread_count : Nat
  read_count : Nat
  unread_by_type : List (NotificationType × Nat)
  latest_unread : Option UserNotification
deriving DecidableEq, Repr

/-- The user's unread join rows inner-joined to their notifications (the
`join(UserNotification)` of the stats type query: a row pairs with the
notification matching its foreign key, and is dropped if none exists). -/
def unreadJoined (db : DB) (user_id : Nat) :
    List (UserNotification × Notification) :=
  db.user_notifications.filterMap (fun r =>
    if r.user_id == user_id && r.is_read == false then
      match db.notifications.find? (fun n => n.id == r.notification_id) with
      | some n => some (r, n)
      | none => none
    else none)

/-- `UserNotificationService.get_user_notification_stats`: total assigned
count, unread count, `read_count = total - unread`, the `GROUP BY type` of the
unread rows joined to notifications (one entry per type actually present, so
zero-count types are omitted), and the unread row whose notification has the
greatest `created_at` (`ORDER BY created_at DESC LIMIT 1`; ties resolved
arbitrarily by the store, here by first position). -/
def get_user_notification_stats (db : DB) (user_id : Nat) :
    UserNotificationStats :=
  let total_count := (db.user_notifications.filter
    (fun r => r.user_id == user_id)).length
  let unread_count := (db.user_notifications.filter
    (fun r => r.user_id == user_id && r.is_read == false)).length
  let read_count := total_count - unread_count
  let joined := unreadJoined db user_id
  let unread_by_type := (NotificationType.all.map
    (fun t => (t, joined.countP (fun p => p.2.type == t)))).filter
    (fun p => p.2 != 0)
  let latest_unread := (joined.foldl
    (fun best p => match best with
      | none => some p
      | some q => if p.2.created_at > q.2.created_at then some p else some q)
    none).map (fun p => p.1)
  { total_notifications := total_count
    unread_count := unread_count
    read_count := read_count
    unread_by_type := unread_by_type
    latest_unread := latest_unread }

/-- The store state as seen by the caller after a sequential direct-assignment
call: an `HTTPException` aborts before the commit (nothing is persisted), a
successful call leaves the committed state. -/
def applyAssign (db : DB) (assignment_data : UserNotificationCreate) : DB :=
  match assign_notification_to_users db assignment_data with
  | .error _ => db
  | .ok (db', _, _) => db'

/-- The store after a sequential bulk-assignment call. -/
def applyBulk (db : DB) (bulk_data : UserNotificationBulkCreate) : DB :=
  match bulk_assign_notifications_to_users db bulk_data with
  | .error _ => db
  | .ok (db', _, _) => db'

/-- The store after a sequential assign-by-role call. -/
def applyByRole (db : DB) (assignment_data : UserNotificationAssignByRole) : DB :=
  match assign_notification_by_role db assignment_data with
  | .error _ => db
  | .ok (db', _, _) => db'

/-- One assignment request, of any of the three strategies. -/
inductive AssignCall where
  | direct (d : UserNotificationCreate)
  | bulk (d : UserNotificationBulkCreate)
  | byRole (d : UserNotificationAssignByRole)
deriving DecidableEq, Repr

/-- What the pydantic validators guarantee about a request body that reached
the service: the id lists are deduplicated (`list(set(v))`). -/
def AssignCall.validated : AssignCall → Prop
  | .direct d => d.user_ids.Nodup
  | .bulk d => d.notification_ids.Nodup ∧ d.user_ids.Nodup
  | .byRole _ => True

instance : DecidablePred AssignCall.validated := fun c => by
  cases c <;> simp only [AssignCall.validated] <;> infer_instance

/-- The store after one assignment call of any strategy. -/
def applyCall (db : DB) : AssignCall → DB
  | .direct d => applyAssign db d
  | .bulk d => applyBulk db d
  | .byRole d => applyByRole db d

/-- The store after a sequence of assignment calls. -/
def runCalls (db : DB) (calls : List AssignCall) : DB :=
  calls.foldl applyCall db

/-- Number of read rows a user has (`is_read = true`). -/
def readCount (db : DB) (user_id : Nat) : Nat :=
  (db.user_notifications.filter
    (fun r => r.user_id == user_id && r.is_read == true)).length

/-- The rows a role-based broadcast inserts: one per user holding one of the
requested roles who is not already assigned the notification. -/
def byRoleNewRows (db : DB) (d : UserNotificationAssignByRole) :
    List UserNotification :=
  mkRows db.next_id
    ((((db.users.filter (fun x => d.roles.contains x.role)).map (fun x => x.id)).filter
      (fun uid => !hasPair db.user_notifications uid d.notification_id)).map
      (fun u => (u, d.notification_id)))

/-- The candidate pair set of the bulk cross-product call, in its loop order
(outer loop `user_ids`, inner loop `notification_ids`). -/
def bulkCandidates (d : UserNotificationBulkCreate) : List (Nat × Nat) :=
  d.user_ids.flatMap (fun u => d.notification_ids.map (fun n => (u, n)))

/-- A small concrete directory used to evaluate the operations: three teachers
(10, 11, 12), two students (20, 21), notifications 1 and 2, and one existing
assignment pairing user 10 with notification 1. -/
def exampleDB : DB :=
  { users := [⟨10, .teacher⟩, ⟨11, .teacher⟩, ⟨12, .teacher⟩,
              ⟨20, .student⟩, ⟨21, .student⟩],
    notifications := [⟨1, .general, 100⟩, ⟨2, .payment, 200⟩],
    user_notifications := [⟨0, 10, 1, false, none⟩],
    next_id := 1 }

/-- The same directory with an empty join store. -/
def exampleDBEmpty : DB :=
  { exampleDB with user_notifications := [], next_id := 0 }

lemma hasPair_append (s₁ s₂ : List UserNotification) (u n : Nat) :
    hasPair (s₁ ++ s₂) u n = (hasPair s₁ u n || hasPair s₂ u n) := by
  simp [hasPair, List.any_append]

lemma hasPair_iff (store : List UserNotification) (u n : Nat) :
    hasPair store u n = true ↔ ∃ r ∈ store, r.user_id = u ∧ r.notification_id = n := by
  simp [hasPair, List.any_eq_true]

lemma hasPair_pairKey_mem (store : List UserNotification) (u n : Nat) :
    hasPair store u n = true ↔ (u, n) ∈ store.map pairKey := by
  rw [hasPair_iff]
  simp [pairKey, List.mem_map, Prod.ext_iff, eq_comm]

lemma commitInserts_ok_eq : ∀ (new store s : List UserNotification),
    commitInserts store new = .ok s → s = store ++ new := by
  intro new
  induction new with
  | nil =>
    intro store s h
    simp only [commitInserts, Except.ok.injEq] at h
    rw [List.append_nil, ← h]
  | cons r rest ih =>
    intro store s h
    simp only [commitInserts] at h
    split at h
    · exact absurd h (by simp)
    · have := ih (store ++ [r]) s h
      simp [this]

lemma commitInserts_ok_pairUnique : ∀ (new store s : List UserNotification),
    commitInserts store new = .ok s → pairUnique store → pairUnique s := by
  intro new
  induction new with
  | nil =>
    intro store s h hu
    simp [commitInserts] at h
    rwa [h] at hu
  | cons r rest ih =>
    intro store s h hu
    simp only [commitInserts] at h
    split at h
    · exact absurd h (by simp)
    · rename_i hfresh
      refine ih (store ++ [r]) s h ?_
      have hnotmem : pairKey r ∉ store.map pairKey := by
        intro hmem
        exact hfresh ((hasPair_pairKey_mem store _ _).mpr hmem)
      have hdisj : ∀ x ∈ store, pairKey x ≠ pairKey r := by
        intro x hx heq
        exact hnotmem (heq ▸ List.mem_map_of_mem pairKey hx)
      simpa [pairUnique, List.map_append, List.nodup_append] using ⟨hu, hdisj⟩

lemma commitInserts_succeeds : ∀ (new store : List UserNotification),
    (∀ r ∈ new, hasPair store r.user_id r.notification_id = false) →
    (new.map pairKey).Nodup →
    commitInserts store new = .ok (store ++ new) := by
  intro new
  induction new with
  | nil => intro store _ _; simp [commitInserts]
  | cons r rest ih =>
    intro store hfresh hnd
    have hr : hasPair store r.user_id r.notification_id = false :=
      hfresh r (List.mem_cons_self r rest)
    simp only [commitInserts, hr, Bool.false_eq_true, if_false]
    have hnd' : (rest.map pairKey).Nodup := (List.nodup_cons.mp hnd).2
    have hknot : pairKey r ∉ rest.map pairKey := (List.nodup_cons.mp hnd).1
    have h1 : ∀ x ∈ rest, hasPair (store ++ [r]) x.user_id x.notification_id = false := by
      intro x hx
      rw [hasPair_append]
      have hx1 := hfresh x (List.mem_cons_of_mem _ hx)
      have hx2 : hasPair [r] x.user_id x.notification_id = false := by
        by_contra hc
        rw [Bool.not_eq_false, hasPair_iff] at hc
        obtain ⟨r', hr', h1', h2'⟩ := hc
        simp only [List.mem_singleton] at hr'
        rw [hr'] at h1' h2'
        exact hknot (by
          have hkey : pairKey r = pairKey x := by simp [pairKey, h1', h2']
          rw [hkey]
          exact List.mem_map_of_mem pairKey hx)
      simp [hx1, hx2]
    have := ih (store ++ [r]) h1 hnd'
    rw [this]
    simp

lemma mkRows_map_pairKey : ∀ (startId : Nat) (ps : List (Nat × Nat)),
    (mkRows startId ps).map pairKey = ps := by
  intro startId ps
  induction ps generalizing startId with
  | nil => rfl
  | cons p rest ih =>
    cases p with
    | mk u n => simp [mkRows, pairKey, ih]

lemma mkRows_length (startId : Nat) (ps : List (Nat × Nat)) :
    (mkRows startId ps).length = ps.length := by
  have := congrArg List.length (mkRows_map_pairKey startId ps)
  simpa using this

lemma bulkLoop_eq (ex : List (Nat × Nat)) : ∀ l,
    bulkLoop ex l = (l.filter (fun p => !ex.contains p),
                     (l.filter (fun p => ex.contains p)).length) := by
  intro l
  induction l with
  | nil => rfl
  | cons p rest ih =>
    by_cases hm : p ∈ ex <;>
      simp [bulkLoop, ih, List.filter_cons, hm]

lemma assign_at_ok_inv {dbR dbC : DB} {d : UserNotificationCreate}
    {db' : DB} {rows : List UserNotification} {k : Nat}
    (h : assign_notification_to_users_at dbR dbC d = .ok (db', rows, k)) :
    db'.users = dbC.users ∧ db'.notifications = dbC.notifications ∧
    db'.user_notifications = dbC.user_notifications ++ rows ∧
    (pairUnique dbC.user_notifications → pairUnique db'.user_notifications) := by
  unfold assign_notification_to_users_at at h
  split at h
  · exact absurd h (by simp)
  · dsimp only [] at h
    split at h
    · exact absurd h (by simp)
    · split at h
      · exact absurd h (by simp)
      · rename_i store heq
        simp only [Except.ok.injEq, Prod.mk.injEq] at h
        obtain ⟨hdb, hrows, _⟩ := h
        subst hdb hrows
        refine ⟨rfl, rfl, ?_, ?_⟩
        · simpa using commitInserts_ok_eq _ _ _ heq
        · intro hu
          simpa using commitInserts_ok_pairUnique _ _ _ heq hu

lemma bulk_at_ok_inv {dbR dbC : DB} {d : UserNotificationBulkCreate}
    {db' : DB} {rows : List UserNotification} {k : Nat}
    (h : bulk_assign_notifications_to_users_at dbR dbC d = .ok (db', rows, k)) :
    db'.users = dbC.users ∧ db'.notifications = dbC.notifications ∧
    db'.user_notifications = dbC.user_notifications ++ rows ∧
    (pairUnique dbC.user_notifications → pairUnique db'.user_notifications) := by
  unfold bulk_assign_notifications_to_users_at at h
  dsimp only [] at h
  split at h
  · exact absurd h (by simp)
  · split at h
    · exact absurd h (by simp)
    · rw [bulkLoop_eq] at h
      dsimp only [] at h
      split at h
      · exact absurd h (by simp)
      · rename_i store heq
        simp only [Except.ok.injEq, Prod.mk.injEq] at h
        obtain ⟨hdb, hrows, _⟩ := h
        subst hdb hrows
        refine ⟨rfl, rfl, ?_, ?_⟩
        · simpa using commitInserts_ok_eq _ _ _ heq
        · intro hu
          simpa using commitInserts_ok_pairUnique _ _ _ heq hu

lemma byRole_at_ok_inv {dbR dbC : DB} {d : UserNotificationAssignByRole}
    {db' : DB} {rows : List UserNotification} {k : Nat}
    (h : assign_notification_by_role_at dbR dbC d = .ok (db', rows, k)) :
    db'.users = dbC.users ∧ db'.notifications = dbC.notifications ∧
    db'.user_notifications = dbC.user_notifications ++ rows ∧
    (pairUnique dbC.user_notifications → pairUnique db'.user_notifications) := by
  unfold assign_notification_by_role_at at h
  split at h
  · exact absurd h (by simp)
  · dsimp only [] at h
    split at h
    · exact absurd h (by simp)
    · split at h
      · exact absurd h (by simp)
      · rename_i store heq
        simp only [Except.ok.injEq, Prod.mk.injEq] at h
        obtain ⟨hdb, hrows, _⟩ := h
        subst hdb hrows
        refine ⟨rfl, rfl, ?_, ?_⟩
        · simpa using commitInserts_ok_eq _ _ _ heq
        · intro hu
          simpa using commitInserts_ok_pairUnique _ _ _ heq hu

/-- C1: every reachable state of the join store keeps at most one
`UserNotification` row per `(user_id, notification_id)` pair: starting from any
store satisfying the composite-uniqueness invariant, any sequence of
assignment calls (`assign_notification_to_users`,
`bulk_assign_notifications_to_users`, `assign_notification_by_role`) preserves
it — each call either aborts leaving the store untouched, or commits inserts
whose pairs the constraint-checking commit verified to be absent. -/
theorem assignment_preserves_pair_uniqueness (db : DB) (calls : List AssignCall)
    (hdb : pairUnique db.user_notifications) :
    pairUnique (runCalls db calls).user_notifications := by
  revert hdb
  induction calls generalizing db with
  | nil => intro hdb; exact hdb
  | cons c rest ih =>
    intro hdb
    have hstep : pairUnique (applyCall db c).user_notifications := by
      cases c with
      | direct d =>
        cases h : assign_notification_to_users db d with
        | error e => simpa [applyCall, applyAssign, h] using hdb
        | ok res =>
          obtain ⟨db', rows, k⟩ := res
          simpa [applyCall, applyAssign, h] using (assign_at_ok_inv h).2.2.2 hdb
      | bulk d =>
        cases h : bulk_assign_notifications_to_users db d with
        | error e => simpa [applyCall, applyBulk, h] using hdb
        | ok res =>
          obtain ⟨db', rows, k⟩ := res
          simpa [applyCall, applyBulk, h] using (bulk_at_ok_inv h).2.2.2 hdb
      | byRole d =>
        cases h : assign_notification_by_role db d with
        | error e => simpa [applyCall, applyByRole, h] using hdb
        | ok res =>
          obtain ⟨db', rows, k⟩ := res
          simpa [applyCall, applyByRole, h] using (byRole_at_ok_inv h).2.2.2 hdb
    simpa [runCalls, List.foldl_cons] using ih (applyCall db c) hstep

theorem assignment_preserves_pair_uniqueness_witness :
    pairUnique exampleDB.user_notifications ∧
    pairUnique (runCalls exampleDB
      [.direct ⟨1, [10, 11]⟩, .bulk ⟨[1, 2], [10, 20]⟩,
       .byRole ⟨2, [.teacher]⟩]).user_notifications :=
  ⟨by decide,
   assignment_preserves_pair_uniqueness exampleDB
     [.direct ⟨1, [10, 11]⟩, .bulk ⟨[1, 2], [10, 20]⟩, .byRole ⟨2, [.teacher]⟩]
     (by decide)⟩

/-- C9: every assignment or read-marking call is atomic.  A failing assignment
call (404 raised before the commit, or a constraint rejection that aborts the
transaction) leaves the store exactly as it was; a successful one persists
precisely the computed delta, appended in the single commit, touching neither
the users nor the notifications tables.  The two read-marking calls change the
store only through their one batched conditional update. -/
theorem assignment_and_read_calls_atomic (db : DB) :
    (∀ (d : UserNotificationCreate) (e : ServiceError),
       assign_notification_to_users db d = .error e → applyAssign db d = db) ∧
    (∀ (d : UserNotificationCreate) (db' : DB) (rows : List UserNotification) (k : Nat),
       assign_notification_to_users db d = .ok (db', rows, k) →
       applyAssign db d = db' ∧
       db'.user_notifications = db.user_notifications ++ rows ∧
       db'.users = db.users ∧ db'.notifications = db.notifications) ∧
    (∀ (d : UserNotificationBulkCreate) (e : ServiceError),
       bulk_assign_notifications_to_users db d = .error e → applyBulk db d = db) ∧
    (∀ (d : UserNotificationBulkCreate) (db' : DB) (rows : List UserNotification) (k : Nat),
       bulk_assign_notifications_to_users db d = .ok (db', rows, k) →
       applyBulk db d = db' ∧
       db'.user_notifications = db.user_notifications ++ rows ∧
       db'.users = db.users ∧ db'.notifications = db.notifications) ∧
    (∀ (d : UserNotificationAssignByRole) (e : ServiceError),
       assign_notification_by_role db d = .error e → applyByRole db d = db) ∧
    (∀ (d : UserNotificationAssignByRole) (db' : DB) (rows : List UserNotification) (k : Nat),
       assign_notification_by_role db d = .ok (db', rows, k) →
       applyByRole db d = db' ∧
       db'.user_notifications = db.user_notifications ++ rows ∧
       db'.users = db.users ∧ db'.notifications = db.notifications) ∧
    (∀ (u now : Nat) (d : UserNotificationMarkRead),
       (mark_notifications_as_read db u d now).1.user_notifications =
         db.user_notifications.map (markRowById
           ((db.user_notifications.filter (fun r => r.user_id == u &&
             d.notification_ids.contains r.notification_id &&
             r.is_read == false)).map (fun r => r.id)) now) ∧
       (mark_notifications_as_read db u d now).1.users = db.users) ∧
    (∀ (u now : Nat),
       (mark_all_as_read db u now).1.user_notifications =
         db.user_notifications.map (markRowAllRead u now) ∧
       (mark_all_as_read db u now).1.users = db.users) := by
  refine ⟨?_, ?_, ?_, ?_, ?_, ?_, ?_, ?_⟩
  · intro d e h; unfold applyAssign; rw [h]
  · intro d db' rows k h
    obtain ⟨hu, hn, hs, _⟩ := assign_at_ok_inv h
    exact ⟨by unfold applyAssign; rw [h], hs, hu, hn⟩
  · intro d e h; unfold applyBulk; rw [h]
  · intro d db' rows k h
    obtain ⟨hu, hn, hs, _⟩ := bulk_at_ok_inv h
    exact ⟨by unfold applyBulk; rw [h], hs, hu, hn⟩
  · intro d e h; unfold applyByRole; rw [h]
  · intro d db' rows k h
    obtain ⟨hu, hn, hs, _⟩ := byRole_at_ok_inv h
    exact ⟨by unfold applyByRole; rw [h], hs, hu, hn⟩
  · intro u now d; exact ⟨rfl, rfl⟩
  · intro u now; exact ⟨rfl, rfl⟩

theorem assignment_and_read_calls_atomic_witness :
    applyAssign exampleDB ⟨5, [10]⟩ = exampleDB ∧
    (({ exampleDB with
        user_notifications := exampleDB.user_notifications ++ [⟨1, 11, 1, false, none⟩],
        next_id := 2 } : DB).user_notifications =
      exampleDB.user_notifications ++ [⟨1, 11, 1, false, none⟩]) := by
  constructor
  · exact (assignment_and_read_calls_atomic exampleDB).1 ⟨5, [10]⟩
      (.notFound .notificationNotFound) (by decide)
  · exact ((assignment_and_read_calls_atomic exampleDB).2.1 ⟨1, [11]⟩
      { exampleDB with
        user_notifications := exampleDB.user_notifications ++ [⟨1, 11, 1, false, none⟩],
        next_id := 2 }
      [⟨1, 11, 1, false, none⟩] 0 (by decide)).2.1

lemma countP_le_countP_map {α : Type} (l : List α) (f : α → α) (p : α → Bool)
    (h : ∀ x, p x = true → p (f x) = true) : l.countP p ≤ (l.map f).countP p := by
  rw [List.countP_map]
  apply List.countP_mono_left
  intro x _ hx
  exact h x hx

lemma markRowAllRead_read_frame (u now : Nat) (r : UserNotification)
    (h : r.is_read = true) : markRowAllRead u now r = r := by
  simp [markRowAllRead, h]

lemma markRowAllRead_other_user (u now : Nat) (r : UserNotification)
    (h : r.user_id ≠ u) : markRowAllRead u now r = r := by
  simp [markRowAllRead, h]

lemma mark_all_no_unread (db : DB) (u now : Nat) :
    ∀ r ∈ (mark_all_as_read db u now).1.user_notifications,
      (r.user_id == u && r.is_read == false) = false := by
  intro r hr
  have hr' : r ∈ db.user_notifications.map (markRowAllRead u now) := hr
  obtain ⟨x, hx, hfx⟩ := List.mem_map.mp hr'
  subst hfx
  unfold markRowAllRead
  split
  · simp
  · rename_i hcond
    simp only [Bool.not_eq_true] at hcond
    exact hcond

lemma mark_notifications_no_unread (db : DB) (u now : Nat)
    (d : UserNotificationMarkRead) :
    ∀ r ∈ (mark_notifications_as_read db u d now).1.user_notifications,
      (r.user_id == u && d.notification_ids.contains r.notification_id &&
        r.is_read == false) = false := by
  intro r hr
  have hr' : r ∈ db.user_notifications.map (markRowById
      ((db.user_notifications.filter (fun s => s.user_id == u &&
        d.notification_ids.contains s.notification_id &&
        s.is_read == false)).map (fun s => s.id)) now) := hr
  obtain ⟨x, hx, hfx⟩ := List.mem_map.mp hr'
  subst hfx
  unfold markRowById
  split
  · simp
  · rename_i hnotin
    by_contra hc
    rw [Bool.not_eq_false] at hc
    apply hnotin
    have hmem : x ∈ db.user_notifications.filter (fun s => s.user_id == u &&
        d.notification_ids.contains s.notification_id && s.is_read == false) :=
      List.mem_filter.mpr ⟨hx, hc⟩
    exact List.elem_iff.mpr (List.mem_map_of_mem (fun s => s.id) hmem)

lemma markRowById_nil (now : Nat) (r : UserNotification) :
    markRowById [] now r = r := by
  simp [markRowById]

/-- C5: the read-marking operations are monotonic (no call ever decreases any
user's read count) and idempotent: immediately repeating `mark_all_as_read`
reports 0 rows transitioned and leaves the store — including every `read_at`
set by the first call — exactly as the first call left it, and likewise for
`mark_notifications_as_read` repeated with the same id list. -/
theorem mark_read_monotonic_idempotent (db : DB) (u now now₂ : Nat)
    (d : UserNotificationMarkRead) :
    (∀ v, readCount db v ≤ readCount (mark_all_as_read db u now).1 v) ∧
    (∀ v, readCount db v ≤ readCount (mark_notifications_as_read db u d now).1 v) ∧
    ((mark_all_as_read (mark_all_as_read db u now).1 u now₂).2 = 0 ∧
     (mark_all_as_read (mark_all_as_read db u now).1 u now₂).1 =
       (mark_all_as_read db u now).1) ∧
    ((mark_notifications_as_read (mark_notifications_as_read db u d now).1 u d now₂).2.1 = 0 ∧
     (mark_notifications_as_read (mark_notifications_as_read db u d now).1 u d now₂).1 =
       (mark_notifications_as_read db u d now).1) := by
  refine ⟨?_, ?_, ?_, ?_⟩
  · intro v
    unfold readCount
    have hst : (mark_all_as_read db u now).1.user_notifications =
        db.user_notifications.map (markRowAllRead u now) := rfl
    rw [hst, ← List.countP_eq_length_filter, ← List.countP_eq_length_filter]
    apply countP_le_countP_map
    intro x hx
    have hread : x.is_read = true := by
      simp only [Bool.and_eq_true, beq_iff_eq] at hx
      exact hx.2
    rw [markRowAllRead_read_frame u now x hread]
    exact hx
  · intro v
    unfold readCount
    have hst : (mark_notifications_as_read db u d now).1.user_notifications =
        db.user_notifications.map (markRowById
          ((db.user_notifications.filter (fun s => s.user_id == u &&
            d.notification_ids.contains s.notification_id &&
            s.is_read == false)).map (fun s => s.id)) now) := rfl
    rw [hst, ← List.countP_eq_length_filter, ← List.countP_eq_length_filter]
    apply countP_le_countP_map
    intro x hx
    simp only [Bool.and_eq_true, beq_iff_eq] at hx
    unfold markRowById
    split
    · simp [hx.1]
    · simp [hx.1, hx.2]
  · have hz := mark_all_no_unread db u now
    have hfilter : (mark_all_as_read db u now).1.user_notifications.filter
        (fun r => r.user_id == u && r.is_read == false) = [] := by
      apply List.filter_eq_nil_iff.mpr
      intro a ha
      simp only [hz a ha]
      exact Bool.false_ne_true
    have hmap : (mark_all_as_read db u now).1.user_notifications.map
        (markRowAllRead u now₂) = (mark_all_as_read db u now).1.user_notifications := by
      have hid : ∀ r ∈ (mark_all_as_read db u now).1.user_notifications,
          markRowAllRead u now₂ r = r := by
        intro r hr
        unfold markRowAllRead
        rw [hz r hr]
        simp
      have := List.map_congr_left hid
      simpa using this
    constructor
    · show ((mark_all_as_read db u now).1.user_notifications.filter
        (fun r => r.user_id == u && r.is_read == false)).length = 0
      rw [hfilter]
      rfl
    · show ({ (mark_all_as_read db u now).1 with
        user_notifications := (mark_all_as_read db u now).1.user_notifications.map
          (markRowAllRead u now₂) } : DB) = (mark_all_as_read db u now).1
      rw [hmap]
  · have hz := mark_notifications_no_unread db u now d
    have hfilter : (mark_notifications_as_read db u d now).1.user_notifications.filter
        (fun r => r.user_id == u && d.notification_ids.contains r.notification_id &&
          r.is_read == false) = [] := by
      apply List.filter_eq_nil_iff.mpr
      intro a ha
      simp only [hz a ha]
      exact Bool.false_ne_true
    constructor
    · show ((mark_notifications_as_read db u d now).1.user_notifications.filter
        (fun r => r.user_id == u && d.notification_ids.contains r.notification_id &&
          r.is_read == false)).length = 0
      rw [hfilter]
      rfl
    · show ({ (mark_notifications_as_read db u d now).1 with
        user_notifications := (mark_notifications_as_read db u d now).1.user_notifications.map
          (markRowById (((mark_notifications_as_read db u d now).1.user_notifications.filter
            (fun r => r.user_id == u && d.notification_ids.contains r.notification_id &&
              r.is_read == false)).map (fun r => r.id)) now₂) } : DB) =
        (mark_notifications_as_read db u d now).1
      rw [hfilter]
      have hpt : ∀ r ∈ (mark_notifications_as_read db u d now).1.user_notifications,
          markRowById (List.map (fun s : UserNotification => s.id) []) now₂ r = r := by
        intro r _
        exact markRowById_nil now₂ r
      have := List.map_congr_left hpt
      simp only [this]
      simp

/-- C10: read-marking touches only the calling user's unread rows.  Both
operations change the store only through their row-update function, and that
function is the identity on every row of another user and on every
already-read row, so no call can alter another user's read state or an
existing `read_at`. -/
theorem mark_read_frame_property (db : DB) (u now : Nat)
    (d : UserNotificationMarkRead)
    (hids : (db.user_notifications.map (fun r => r.id)).Nodup) :
    ((mark_all_as_read db u now).1.user_notifications =
       db.user_notifications.map (markRowAllRead u now) ∧
     ∀ r : UserNotification, (r.user_id ≠ u ∨ r.is_read = true) →
       markRowAllRead u now r = r) ∧
    (∃ unread_ids : List Nat,
       (mark_notifications_as_read db u d now).1.user_notifications =
         db.user_notifications.map (markRowById unread_ids now) ∧
       ∀ r ∈ db.user_notifications, (r.user_id ≠ u ∨ r.is_read = true) →
         markRowById unread_ids now r = r) := by
  constructor
  · refine ⟨rfl, ?_⟩
    intro r hr
    rcases hr with h | h
    · exact markRowAllRead_other_user u now r h
    · exact markRowAllRead_read_frame u now r h
  · refine ⟨(db.user_notifications.filter (fun s : UserNotification =>
      s.user_id == u && d.notification_ids.contains s.notification_id &&
      s.is_read == false)).map (fun s : UserNotification => s.id), rfl, ?_⟩
    intro r hr hcase
    unfold markRowById
    split
    · rename_i hin
      exfalso
      have hin' := List.elem_iff.mp hin
      obtain ⟨x, hxmem, hxid⟩ := List.mem_map.mp hin'
      have hxstore := (List.mem_filter.mp hxmem).1
      have hxP := (List.mem_filter.mp hxmem).2
      have hxr : x = r := List.inj_on_of_nodup_map hids hxstore hr hxid
      subst hxr
      simp only [Bool.and_eq_true, beq_iff_eq] at hxP
      rcases hcase with h | h
      · exact h hxP.1.1
      · rw [hxP.2] at h
        cases h
    · rfl

theorem mark_read_frame_property_witness :
    (exampleDB.user_notifications.map (fun r => r.id)).Nodup ∧
    (((mark_all_as_read exampleDB 10 5).1.user_notifications =
        exampleDB.user_notifications.map (markRowAllRead 10 5) ∧
      ∀ r : UserNotification, (r.user_id ≠ 10 ∨ r.is_read = true) →
        markRowAllRead 10 5 r = r) ∧
     (∃ unread_ids : List Nat,
        (mark_notifications_as_read exampleDB 10 ⟨[1]⟩ 5).1.user_notifications =
          exampleDB.user_notifications.map (markRowById unread_ids 5) ∧
        ∀ r ∈ exampleDB.user_notifications, (r.user_id ≠ 10 ∨ r.is_read = true) →
          markRowById unread_ids 5 r = r)) :=
  ⟨by decide, mark_read_frame_property exampleDB 10 5 ⟨[1]⟩ (by decide)⟩

lemma filter_length_split {α : Type} (l : List α) (p q : α → Bool) :
    (l.filter p).length =
      (l.filter (fun x => p x && q x)).length +
      (l.filter (fun x => p x && !q x)).length := by
  induction l with
  | nil => rfl
  | cons x rest ih =>
    simp only [List.filter_cons]
    cases hp : p x <;> cases hq : q x <;> simp [hp, hq] <;> omega

/-- C6: for a user and a (deduplicated) notification-id list,
`mark_notifications_as_read` reports as transitioned exactly the user's
currently-unread join rows among those ids, reports as already-read exactly
the user's read join rows among those ids, rewrites precisely the matched
unread rows to read with `read_at = now`, and leaves everything else
(including ids with no join row for the user, which enter neither count)
untouched. -/
theorem mark_notifications_as_read_spec (db : DB) (u now : Nat)
    (d : UserNotificationMarkRead)
    (hids : (db.user_notifications.map (fun r => r.id)).Nodup) :
    (mark_notifications_as_read db u d now).2.1 =
      (db.user_notifications.filter (fun r => r.user_id == u &&
        d.notification_ids.contains r.notification_id && r.is_read == false)).length ∧
    (mark_notifications_as_read db u d now).2.2 =
      (db.user_notifications.filter (fun r => r.user_id == u &&
        d.notification_ids.contains r.notification_id && r.is_read == true)).length ∧
    (mark_notifications_as_read db u d now).1.user_notifications =
      db.user_notifications.map (fun r =>
        if r.user_id == u && d.notification_ids.contains r.notification_id &&
            r.is_read == false
        then { r with is_read := true, read_at := some now } else r) ∧
    (mark_notifications_as_read db u d now).1.users = db.users ∧
    (mark_notifications_as_read db u d now).1.notifications = db.notifications := by
  refine ⟨rfl, ?_, ?_, rfl, rfl⟩
  · show (db.user_notifications.filter (fun r => r.user_id == u &&
        d.notification_ids.contains r.notification_id)).length -
      (db.user_notifications.filter (fun r => r.user_id == u &&
        d.notification_ids.contains r.notification_id &&
        r.is_read == false)).length = _
    have hsplit := filter_length_split db.user_notifications
      (fun r => r.user_id == u && d.notification_ids.contains r.notification_id)
      (fun r => r.is_read)
    have hunread : db.user_notifications.filter (fun r =>
        (r.user_id == u && d.notification_ids.contains r.notification_id) &&
        !r.is_read) =
      db.user_notifications.filter (fun r => r.user_id == u &&
        d.notification_ids.contains r.notification_id && r.is_read == false) := by
      apply List.filter_congr
      intro r _
      cases r.is_read <;> simp
    have hread : db.user_notifications.filter (fun r =>
        (r.user_id == u && d.notification_ids.contains r.notification_id) &&
        r.is_read) =
      db.user_notifications.filter (fun r => r.user_id == u &&
        d.notification_ids.contains r.notification_id && r.is_read == true) := by
      apply List.filter_congr
      intro r _
      cases r.is_read <;> simp
    rw [hunread, hread] at hsplit
    omega
  · show db.user_notifications.map (markRowById
      ((db.user_notifications.filter (fun r => r.user_id == u &&
        d.notification_ids.contains r.notification_id &&
        r.is_read == false)).map (fun r => r.id)) now) = _
    apply List.map_congr_left
    intro r hr
    unfold markRowById
    cases hcond : (r.user_id == u && d.notification_ids.contains r.notification_id &&
        r.is_read == false) with
    | true =>
      have hmem : r ∈ db.user_notifications.filter (fun s => s.user_id == u &&
          d.notification_ids.contains s.notification_id && s.is_read == false) :=
        List.mem_filter.mpr ⟨hr, hcond⟩
      have hin : ((db.user_notifications.filter (fun s => s.user_id == u &&
          d.notification_ids.contains s.notification_id &&
          s.is_read == false)).map (fun s => s.id)).contains r.id = true :=
        List.elem_iff.mpr (List.mem_map_of_mem (fun s => s.id) hmem)
      rw [hin]
    | false =>
      have hnotin : ((db.user_notifications.filter (fun s => s.user_id == u &&
          d.notification_ids.contains s.notification_id &&
          s.is_read == false)).map (fun s => s.id)).contains r.id = false := by
        by_contra hc
        rw [Bool.not_eq_false] at hc
        obtain ⟨x, hxmem, hxid⟩ := List.mem_map.mp (List.elem_iff.mp hc)
        have hxstore := (List.mem_filter.mp hxmem).1
        have hxP := (List.mem_filter.mp hxmem).2
        have hxr : x = r := List.inj_on_of_nodup_map hids hxstore hr hxid
        rw [hxr] at hxP
        rw [hcond] at hxP
        cases hxP
      rw [hnotin]

theorem mark_notifications_as_read_spec_witness :
    (exampleDB.user_notifications.map (fun r => r.id)).Nodup ∧
    (mark_notifications_as_read exampleDB 10 ⟨[1, 2]⟩ 7).2.1 =
      (exampleDB.user_notifications.filter (fun r => r.user_id == 10 &&
        ([1, 2] : List Nat).contains r.notification_id &&
        r.is_read == false)).length :=
  ⟨by decide,
   (mark_notifications_as_read_spec exampleDB 10 7 ⟨[1, 2]⟩ (by decide)).1⟩

/-- C4: the assignment operations install no handler for storage constraint
violations.  In the race the spec describes — a conflicting row committed by a
concurrent call between this call's reconciliation read and its commit — the
unique-constraint rejection surfaces to the caller as the raw storage error
instead of being absorbed into the skipped count: with user 10 and
notification 1 existing, a read snapshot holding no (10, 1) row, and a commit
state already holding (10, 1), the direct assignment returns
`IntegrityError`.  The same call without the interleaved row commits
normally, showing the read-phase check alone is what avoids duplicates. -/
theorem race_duplicate_insert_integrity_error :
    assign_notification_to_users_at
      { exampleDBEmpty with next_id := 5 }
      { exampleDBEmpty with
        user_notifications := [⟨9, 10, 1, false, none⟩], next_id := 10 }
      ⟨1, [10]⟩ = .error .integrityError ∧
    assign_notification_to_users { exampleDBEmpty with next_id := 5 } ⟨1, [10]⟩ =
      .ok ({ exampleDBEmpty with
             user_notifications := [⟨5, 10, 1, false, none⟩], next_id := 6 },
           [⟨5, 10, 1, false, none⟩], 0) := by decide

/-- C3 counterexample: the claim that every failing assignment call enumerates
every missing identifier is false.  A direct assignment naming a nonexistent
notification fails with the bare `Notification not found` detail carrying no
identifier, and the bulk call with notification 99 and user 88 both missing
reports only the missing notification set, never mentioning user 88. -/
theorem not_found_detail_counterexample :
    assign_notification_to_users exampleDB ⟨999, [10]⟩ =
      .error (.notFound .notificationNotFound) ∧
    ErrDetail.notificationNotFound.mentionedIds = [] ∧
    bulk_assign_notifications_to_users exampleDBEmpty ⟨[99], [88]⟩ =
      .error (.notFound (.notificationsNotFound [99])) ∧
    userExists exampleDBEmpty 88 = false ∧
    88 ∉ (ErrDetail.notificationsNotFound [99]).mentionedIds := by decide

lemma users_filter_map_contains (users : List User) (uids : List Nat) (u : Nat)
    (hu : u ∈ uids) :
    ((users.filter (fun x => uids.contains x.id)).map (fun x => x.id)).contains u =
      users.any (fun x => x.id == u) := by
  cases h : users.any (fun x => x.id == u) with
  | true =>
    obtain ⟨x, hx, hfx⟩ := List.any_eq_true.mp h
    rw [beq_iff_eq] at hfx
    have hmem : x ∈ users.filter (fun y => uids.contains y.id) :=
      List.mem_filter.mpr ⟨hx, by rw [hfx]; exact List.elem_iff.mpr hu⟩
    have hin : x.id ∈ (users.filter (fun y => uids.contains y.id)).map
        (fun y => y.id) := List.mem_map_of_mem (fun y => y.id) hmem
    rw [hfx] at hin
    exact List.elem_iff.mpr hin
  | false =>
    by_contra hc
    rw [Bool.not_eq_false] at hc
    obtain ⟨x, hxmem, hxid⟩ := List.mem_map.mp (List.elem_iff.mp hc)
    have hx := (List.mem_filter.mp hxmem).1
    have : users.any (fun y => y.id == u) = true :=
      List.any_eq_true.mpr ⟨x, hx, by simp [hxid]⟩
    rw [h] at this
    cases this

lemma notifs_filter_map_contains (notifs : List Notification) (nids : List Nat)
    (n : Nat) (hn : n ∈ nids) :
    ((notifs.filter (fun x => nids.contains x.id)).map (fun x => x.id)).contains n =
      notifs.any (fun x => x.id == n) := by
  cases h : notifs.any (fun x => x.id == n) with
  | true =>
    obtain ⟨x, hx, hfx⟩ := List.any_eq_true.mp h
    rw [beq_iff_eq] at hfx
    have hmem : x ∈ notifs.filter (fun y => nids.contains y.id) :=
      List.mem_filter.mpr ⟨hx, by rw [hfx]; exact List.elem_iff.mpr hn⟩
    have hin : x.id ∈ (notifs.filter (fun y => nids.contains y.id)).map
        (fun y => y.id) := List.mem_map_of_mem (fun y => y.id) hmem
    rw [hfx] at hin
    exact List.elem_iff.mpr hin
  | false =>
    by_contra hc
    rw [Bool.not_eq_false] at hc
    obtain ⟨x, hxmem, hxid⟩ := List.mem_map.mp (List.elem_iff.mp hc)
    have hx := (List.mem_filter.mp hxmem).1
    have : notifs.any (fun y => y.id == n) = true :=
      List.any_eq_true.mpr ⟨x, hx, by simp [hxid]⟩
    rw [h] at this
    cases this

lemma missing_user_ids_eq (db : DB) (uids : List Nat) :
    uids.filter (fun uid => !((db.users.filter (fun x => uids.contains x.id)).map
      (fun x => x.id)).contains uid) =
    uids.filter (fun uid => !userExists db uid) := by
  apply List.filter_congr
  intro uid huid
  rw [users_filter_map_contains db.users uids uid huid]
  rfl

lemma missing_notification_ids_eq (db : DB) (nids : List Nat) :
    nids.filter (fun nid => !((db.notifications.filter
      (fun x => nids.contains x.id)).map (fun x => x.id)).contains nid) =
    nids.filter (fun nid => !notifExists db nid) := by
  apply List.filter_congr
  intro nid hnid
  rw [notifs_filter_map_contains db.notifications nids nid hnid]
  rfl

lemma find?_notification_some (db : DB) (nid : Nat)
    (hn : notifExists db nid = true) :
    ∃ nx, db.notifications.find? (fun n => n.id == nid) = some nx := by
  apply Option.isSome_iff_exists.mp
  rw [List.find?_isSome]
  obtain ⟨x, hx, hbx⟩ := List.any_eq_true.mp hn
  exact ⟨x, hx, hbx⟩

lemma find?_notification_none (db : DB) (nid : Nat)
    (hn : notifExists db nid = false) :
    db.notifications.find? (fun n => n.id == nid) = none := by
  rw [List.find?_eq_none]
  intro x hx hbx
  have : notifExists db nid = true := List.any_eq_true.mpr ⟨x, hx, hbx⟩
  rw [hn] at this
  cases this

lemma assign_notification_missing (db : DB) (d : UserNotificationCreate)
    (h : notifExists db d.notification_id = false) :
    assign_notification_to_users db d = .error (.notFound .notificationNotFound) := by
  unfold assign_notification_to_users assign_notification_to_users_at
  rw [find?_notification_none db d.notification_id h]

lemma assign_users_missing (db : DB) (d : UserNotificationCreate)
    (hn : notifExists db d.notification_id = true)
    (hmiss : d.user_ids.filter (fun uid => !userExists db uid) ≠ []) :
    assign_notification_to_users db d =
      .error (.notFound (.usersNotFound
        (d.user_ids.filter (fun uid => !userExists db uid)))) := by
  unfold assign_notification_to_users assign_notification_to_users_at
  obtain ⟨nx, hnx⟩ := find?_notification_some db d.notification_id hn
  rw [hnx]
  dsimp only
  rw [missing_user_ids_eq db d.user_ids]
  rw [if_pos hmiss]

lemma bulk_notifications_missing (db : DB) (d : UserNotificationBulkCreate)
    (hmiss : d.notification_ids.filter (fun nid => !notifExists db nid) ≠ []) :
    bulk_assign_notifications_to_users db d =
      .error (.notFound (.notificationsNotFound
        (d.notification_ids.filter (fun nid => !notifExists db nid)))) := by
  simp only [bulk_assign_notifications_to_users, bulk_assign_notifications_to_users_at]
  rw [missing_notification_ids_eq db d.notification_ids]
  rw [if_pos hmiss]

lemma bulk_users_missing (db : DB) (d : UserNotificationBulkCreate)
    (hns : d.notification_ids.filter (fun nid => !notifExists db nid) = [])
    (hmiss : d.user_ids.filter (fun uid => !userExists db uid) ≠ []) :
    bulk_assign_notifications_to_users db d =
      .error (.notFound (.usersNotFound
        (d.user_ids.filter (fun uid => !userExists db uid)))) := by
  simp only [bulk_assign_notifications_to_users, bulk_assign_notifications_to_users_at]
  rw [missing_notification_ids_eq db d.notification_ids, hns]
  rw [if_neg (not_not_intro rfl)]
  rw [missing_user_ids_eq db d.user_ids]
  rw [if_pos hmiss]

lemma byRole_notification_missing (db : DB) (d : UserNotificationAssignByRole)
    (h : notifExists db d.notification_id = false) :
    assign_notification_by_role db d = .error (.notFound .notificationNotFound) := by
  unfold assign_notification_by_role assign_notification_by_role_at
  rw [find?_notification_none db d.notification_id h]

lemma byRole_no_users (db : DB) (d : UserNotificationAssignByRole)
    (hn : notifExists db d.notification_id = true)
    (hmatch : db.users.filter (fun x => d.roles.contains x.role) = []) :
    assign_notification_by_role db d =
      .error (.notFound (.noUsersWithRoles d.roles)) := by
  unfold assign_notification_by_role assign_notification_by_role_at
  obtain ⟨nx, hnx⟩ := find?_notification_some db d.notification_id hn
  rw [hnx]
  dsimp only
  rw [hmatch]
  rw [if_pos rfl]

/-- C3 (amended): missing-user failures do enumerate every missing user id,
and the bulk call enumerates every missing notification id; but the two bulk
existence checks run sequentially — notifications first — so only the first
non-empty set is ever reported, and the two single-notification calls (direct
and role-based) report a bare `Notification not found` detail carrying no
identifier. -/
theorem not_found_detail_enumeration (db : DB) :
    (∀ d : UserNotificationCreate, notifExists db d.notification_id = false →
       assign_notification_to_users db d =
         .error (.notFound .notificationNotFound)) ∧
    (∀ d : UserNotificationCreate, notifExists db d.notification_id = true →
       d.user_ids.filter (fun uid => !userExists db uid) ≠ [] →
       assign_notification_to_users db d =
         .error (.notFound (.usersNotFound
           (d.user_ids.filter (fun uid => !userExists db uid))))) ∧
    (∀ d : UserNotificationBulkCreate,
       d.notification_ids.filter (fun nid => !notifExists db nid) ≠ [] →
       bulk_assign_notifications_to_users db d =
         .error (.notFound (.notificationsNotFound
           (d.notification_ids.filter (fun nid => !notifExists db nid))))) ∧
    (∀ d : UserNotificationBulkCreate,
       d.notification_ids.filter (fun nid => !notifExists db nid) = [] →
       d.user_ids.filter (fun uid => !userExists db uid) ≠ [] →
       bulk_assign_notifications_to_users db d =
         .error (.notFound (.usersNotFound
           (d.user_ids.filter (fun uid => !userExists db uid))))) ∧
    (∀ d : UserNotificationAssignByRole, notifExists db d.notification_id = false →
       assign_notification_by_role db d =
         .error (.notFound .notificationNotFound)) :=
  ⟨fun d h => assign_notification_missing db d h,
   fun d hn hmiss => assign_users_missing db d hn hmiss,
   fun d hmiss => bulk_notifications_missing db d hmiss,
   fun d hns hmiss => bulk_users_missing db d hns hmiss,
   fun d h => byRole_notification_missing db d h⟩

theorem not_found_detail_enumeration_witness :
    assign_notification_to_users exampleDB ⟨999, [10]⟩ =
      .error (.notFound .notificationNotFound) ∧
    assign_notification_to_users exampleDB ⟨1, [10, 77]⟩ =
      .error (.notFound (.usersNotFound
        (([10, 77] : List Nat).filter (fun uid => !userExists exampleDB uid)))) ∧
    bulk_assign_notifications_to_users exampleDB ⟨[1, 55], [10]⟩ =
      .error (.notFound (.notificationsNotFound
        (([1, 55] : List Nat).filter (fun nid => !notifExists exampleDB nid)))) ∧
    bulk_assign_notifications_to_users exampleDB ⟨[1, 2], [10, 77]⟩ =
      .error (.notFound (.usersNotFound
        (([10, 77] : List Nat).filter (fun uid => !userExists exampleDB uid)))) ∧
    assign_notification_by_role exampleDB ⟨999, [.teacher]⟩ =
      .error (.notFound .notificationNotFound) :=
  ⟨(not_found_detail_enumeration exampleDB).1 ⟨999, [10]⟩ (by decide),
   (not_found_detail_enumeration exampleDB).2.1 ⟨1, [10, 77]⟩ (by decide) (by decide),
   (not_found_detail_enumeration exampleDB).2.2.1 ⟨[1, 55], [10]⟩ (by decide),
   (not_found_detail_enumeration exampleDB).2.2.2.1 ⟨[1, 2], [10, 77]⟩
     (by decide) (by decide),
   (not_found_detail_enumeration exampleDB).2.2.2.2 ⟨999, [.teacher]⟩ (by decide)⟩

lemma existing_assignment_contains (store : List UserNotification)
    (uids : List Nat) (nid u : Nat) (hu : u ∈ uids) :
    ((store.filter (fun r => r.notification_id == nid && uids.contains r.user_id)).map
      (fun r => r.user_id)).contains u = hasPair store u nid := by
  cases h : hasPair store u nid with
  | true =>
    obtain ⟨r, hr, hru, hrn⟩ := (hasPair_iff store u nid).mp h
    have hmem : r ∈ store.filter (fun s => s.notification_id == nid &&
        uids.contains s.user_id) :=
      List.mem_filter.mpr ⟨hr, by
        rw [hrn, hru]
        simp
        exact hu⟩
    have hin : r.user_id ∈ (store.filter (fun s => s.notification_id == nid &&
        uids.contains s.user_id)).map (fun s => s.user_id) :=
      List.mem_map_of_mem (fun s => s.user_id) hmem
    rw [hru] at hin
    exact List.elem_iff.mpr hin
  | false =>
    by_contra hc
    rw [Bool.not_eq_false] at hc
    obtain ⟨r, hrmem, hrid⟩ := List.mem_map.mp (List.elem_iff.mp hc)
    have hr := (List.mem_filter.mp hrmem).1
    have hP := (List.mem_filter.mp hrmem).2
    simp only [Bool.and_eq_true, beq_iff_eq] at hP
    have : hasPair store u nid = true :=
      (hasPair_iff store u nid).mpr ⟨r, hr, hrid, hP.1⟩
    rw [h] at this
    cases this

lemma existing_pairs_contains (store : List UserNotification)
    (nids uids : List Nat) (p : Nat × Nat) (hu : p.1 ∈ uids) (hn : p.2 ∈ nids) :
    ((store.filter (fun r => nids.contains r.notification_id &&
        uids.contains r.user_id)).map pairKey).contains p =
      hasPair store p.1 p.2 := by
  cases h : hasPair store p.1 p.2 with
  | true =>
    obtain ⟨r, hr, hru, hrn⟩ := (hasPair_iff store p.1 p.2).mp h
    have hmem : r ∈ store.filter (fun s => nids.contains s.notification_id &&
        uids.contains s.user_id) :=
      List.mem_filter.mpr ⟨hr, by
        rw [hrn, hru]
        simp
        exact ⟨hn, hu⟩⟩
    have hkey : pairKey r = p := by
      show (r.user_id, r.notification_id) = p
      rw [hru, hrn]
    have hin : pairKey r ∈ (store.filter (fun s => nids.contains s.notification_id &&
        uids.contains s.user_id)).map pairKey :=
      List.mem_map_of_mem pairKey hmem
    rw [hkey] at hin
    exact List.elem_iff.mpr hin
  | false =>
    by_contra hc
    rw [Bool.not_eq_false] at hc
    obtain ⟨r, hrmem, hrkey⟩ := List.mem_map.mp (List.elem_iff.mp hc)
    have hr := (List.mem_filter.mp hrmem).1
    have h1 : r.user_id = p.1 := congrArg Prod.fst hrkey
    have h2 : r.notification_id = p.2 := congrArg Prod.snd hrkey
    have : hasPair store p.1 p.2 = true :=
      (hasPair_iff store p.1 p.2).mpr ⟨r, hr, h1, h2⟩
    rw [h] at this
    cases this

lemma mkRows_map_user_id : ∀ (s n : Nat) (us : List Nat),
    (mkRows s (us.map (fun u => (u, n)))).map (fun r => r.user_id) = us := by
  intro s n us
  induction us generalizing s with
  | nil => rfl
  | cons a rest ih => simp [mkRows, ih]

lemma mkRows_fields : ∀ (s : Nat) (ps : List (Nat × Nat)) (r : UserNotification),
    r ∈ mkRows s ps → r.notification_id = (pairKey r).2 ∧ r.user_id = (pairKey r).1 ∧
      r.is_read = false ∧ r.read_at = none := by
  intro s ps
  induction ps generalizing s with
  | nil => intro r hr; cases hr
  | cons p rest ih =>
    intro r hr
    cases p with
    | mk u n =>
      rcases List.mem_cons.mp hr with h | h
      · subst h; exact ⟨rfl, rfl, rfl, rfl⟩
      · exact ih (s + 1) r h

lemma nodup_cross (us ns : List Nat) (hu : us.Nodup) (hn : ns.Nodup) :
    (us.flatMap (fun u => ns.map (fun n => (u, n)))).Nodup := by
  induction us with
  | nil => simp
  | cons a rest ih =>
    rw [List.flatMap_cons, List.nodup_append]
    refine ⟨?_, ih (List.nodup_cons.mp hu).2, ?_⟩
    · exact hn.map (fun n₁ n₂ h => congrArg Prod.snd h)
    · intro p hp1 hp2
      obtain ⟨n, _, hpn⟩ := List.mem_map.mp hp1
      obtain ⟨u', hu', hq⟩ := List.mem_flatMap.mp hp2
      obtain ⟨n', _, hqn⟩ := List.mem_map.mp hq
      have h1 : p.1 = a := by rw [← hpn]
      have h2 : p.1 = u' := by rw [← hqn]
      have : a ∈ rest := by rw [← h1.symm.trans h2] at hu'; exact hu'
      exact (List.nodup_cons.mp hu).1 this

lemma byRole_success (db : DB) (d : UserNotificationAssignByRole)
    (hn : notifExists db d.notification_id = true)
    (hmatch : db.users.filter (fun x => d.roles.contains x.role) ≠ [])
    (hnodup : (db.users.map (fun x => x.id)).Nodup) :
    assign_notification_by_role db d =
      .ok ({ db with
              user_notifications := db.user_notifications ++ byRoleNewRows db d,
              next_id := db.next_id + (byRoleNewRows db d).length },
           byRoleNewRows db d,
           (db.user_notifications.filter (fun r =>
             r.notification_id == d.notification_id &&
             ((db.users.filter (fun x => d.roles.contains x.role)).map
               (fun x => x.id)).contains r.user_id)).length) := by
  unfold assign_notification_by_role assign_notification_by_role_at
  obtain ⟨nx, hnx⟩ := find?_notification_some db d.notification_id hn
  rw [hnx]
  dsimp only
  rw [if_neg hmatch]
  have hconv : ((db.users.filter (fun x => d.roles.contains x.role)).map
        (fun x => x.id)).filter
      (fun uid => !((db.user_notifications.filter (fun r =>
        r.notification_id == d.notification_id &&
        ((db.users.filter (fun x => d.roles.contains x.role)).map
          (fun x => x.id)).contains r.user_id)).map
        (fun r => r.user_id)).contains uid) =
      ((db.users.filter (fun x => d.roles.contains x.role)).map
        (fun x => x.id)).filter
      (fun uid => !hasPair db.user_notifications uid d.notification_id) := by
    apply List.filter_congr
    intro uid huid
    rw [existing_assignment_contains db.user_notifications
      ((db.users.filter (fun x => d.roles.contains x.role)).map (fun x => x.id))
      d.notification_id uid huid]
  rw [hconv]
  have huidsNodup : (((db.users.filter (fun x => d.roles.contains x.role)).map
      (fun x => x.id)).filter
      (fun uid => !hasPair db.user_notifications uid d.notification_id)).Nodup := by
    apply List.Nodup.filter
    exact hnodup.sublist ((List.filter_sublist db.users).map (fun x => x.id))
  have hfresh : ∀ r ∈ mkRows db.next_id
      ((((db.users.filter (fun x => d.roles.contains x.role)).map
        (fun x => x.id)).filter
        (fun uid => !hasPair db.user_notifications uid d.notification_id)).map
        (fun u => (u, d.notification_id))),
      hasPair db.user_notifications r.user_id r.notification_id = false := by
    intro r hr
    have hkey : pairKey r ∈ ((((db.users.filter (fun x =>
        d.roles.contains x.role)).map (fun x => x.id)).filter
        (fun uid => !hasPair db.user_notifications uid d.notification_id)).map
        (fun u => (u, d.notification_id))) := by
      have h0 := List.mem_map_of_mem pairKey hr
      rw [mkRows_map_pairKey] at h0
      exact h0
    obtain ⟨u, hu, hup⟩ := List.mem_map.mp hkey
    have hu2 := (List.mem_filter.mp hu).2
    rw [Bool.not_eq_true'] at hu2
    have hu1 : r.user_id = u := by
      have := congrArg Prod.fst hup
      simpa [pairKey] using this.symm
    have hn1 : r.notification_id = d.notification_id := by
      have := congrArg Prod.snd hup
      simpa [pairKey] using this.symm
    rw [hu1, hn1]
    exact hu2
  have hnd2 : ((mkRows db.next_id
      ((((db.users.filter (fun x => d.roles.contains x.role)).map
        (fun x => x.id)).filter
        (fun uid => !hasPair db.user_notifications uid d.notification_id)).map
        (fun u => (u, d.notification_id)))).map pairKey).Nodup := by
    rw [mkRows_map_pairKey]
    exact huidsNodup.map (fun a b h => congrArg Prod.fst h)
  rw [commitInserts_succeeds _ db.user_notifications hfresh hnd2]
  rw [List.length_map]
  rfl

/-- C8: a role-based broadcast resolves exactly the users currently holding
one of the listed roles and inserts one join row per resolved user not already
assigned the notification (users with other roles get none); it fails with
NotFound when the notification is missing or when no user matches the role
set; and against a directory of three teachers and two students with an empty
join store, `roles = [teacher]` creates exactly the three teacher rows. -/
theorem assign_by_role_spec (db : DB) (d : UserNotificationAssignByRole) :
    (notifExists db d.notification_id = true →
     db.users.filter (fun x => d.roles.contains x.role) ≠ [] →
     (db.users.map (fun x => x.id)).Nodup →
     ∃ db' skipped,
       assign_notification_by_role db d = .ok (db', byRoleNewRows db d, skipped) ∧
       db'.user_notifications = db.user_notifications ++ byRoleNewRows db d ∧
       (byRoleNewRows db d).map (fun r => r.user_id) =
         ((db.users.filter (fun x => d.roles.contains x.role)).map
           (fun x => x.id)).filter
           (fun uid => !hasPair db.user_notifications uid d.notification_id) ∧
       ∀ r ∈ byRoleNewRows db d, r.notification_id = d.notification_id ∧
         r.is_read = false) ∧
    (notifExists db d.notification_id = false →
     assign_notification_by_role db d = .error (.notFound .notificationNotFound)) ∧
    (notifExists db d.notification_id = true →
     db.users.filter (fun x => d.roles.contains x.role) = [] →
     assign_notification_by_role db d =
       .error (.notFound (.noUsersWithRoles d.roles))) ∧
    (assign_notification_by_role exampleDBEmpty ⟨1, [.teacher]⟩ =
      .ok ({ exampleDBEmpty with
             user_notifications := [⟨0, 10, 1, false, none⟩, ⟨1, 11, 1, false, none⟩,
               ⟨2, 12, 1, false, none⟩],
             next_id := 3 },
           [⟨0, 10, 1, false, none⟩, ⟨1, 11, 1, false, none⟩,
            ⟨2, 12, 1, false, none⟩],
           0)) := by
  refine ⟨?_, ?_, ?_, by decide⟩
  · intro hn hmatch hnodup
    refine ⟨_, _, byRole_success db d hn hmatch hnodup, rfl, ?_, ?_⟩
    · unfold byRoleNewRows
      rw [mkRows_map_user_id]
    · intro r hr
      have hf := mkRows_fields db.next_id _ r hr
      have h0 := List.mem_map_of_mem pairKey hr
      unfold byRoleNewRows at h0
      rw [mkRows_map_pairKey] at h0
      obtain ⟨u, _, hup⟩ := List.mem_map.mp h0
      have hsnd : (pairKey r).2 = d.notification_id := by
        have := congrArg Prod.snd hup
        simpa using this.symm
      exact ⟨hf.1.trans hsnd, hf.2.2.1⟩
  · intro h
    exact byRole_notification_missing db d h
  · intro hn hmatch
    exact byRole_no_users db d hn hmatch

theorem assign_by_role_spec_witness :
    (∃ db' skipped,
       assign_notification_by_role exampleDBEmpty ⟨1, [.teacher]⟩ =
         .ok (db', byRoleNewRows exampleDBEmpty ⟨1, [.teacher]⟩, skipped) ∧
       db'.user_notifications = exampleDBEmpty.user_notifications ++
         byRoleNewRows exampleDBEmpty ⟨1, [.teacher]⟩ ∧
       (byRoleNewRows exampleDBEmpty ⟨1, [.teacher]⟩).map (fun r => r.user_id) =
         ((exampleDBEmpty.users.filter (fun x =>
           ([UserRole.teacher] : List UserRole).contains x.role)).map
           (fun x => x.id)).filter
           (fun uid => !hasPair exampleDBEmpty.user_notifications uid 1) ∧
       ∀ r ∈ byRoleNewRows exampleDBEmpty ⟨1, [.teacher]⟩,
         r.notification_id = 1 ∧ r.is_read = false) ∧
    assign_notification_by_role exampleDBEmpty ⟨999, [.teacher]⟩ =
      .error (.notFound .notificationNotFound) ∧
    assign_notification_by_role exampleDBEmpty ⟨1, [.admin]⟩ =
      .error (.notFound (.noUsersWithRoles [.admin])) :=
  ⟨(assign_by_role_spec exampleDBEmpty ⟨1, [.teacher]⟩).1
     (by decide) (by decide) (by decide),
   (assign_by_role_spec exampleDBEmpty ⟨999, [.teacher]⟩).2.1 (by decide),
   (assign_by_role_spec exampleDBEmpty ⟨1, [.admin]⟩).2.2.1 (by decide) (by decide)⟩

/-- C2: a bulk cross-product assignment whose notifications and users all
exist inserts exactly the candidate pairs (user_ids × notification_ids, in
loop order) not already present in the store — the batched both-ids-in-set
query having been reduced to exact pairs first — and reports as skipped
exactly the number of candidate pairs already present; in particular
bulk-assigning notifications {1, 2} to users {10, 11} when (10, 1) already
exists creates exactly 3 new rows and reports skipped_count = 1. -/
theorem bulk_assign_cross_product_delta (db : DB) (d : UserNotificationBulkCreate)
    (hnd : d.notification_ids.Nodup) (hud : d.user_ids.Nodup)
    (hns : ∀ nid ∈ d.notification_ids, notifExists db nid = true)
    (hus : ∀ uid ∈ d.user_ids, userExists db uid = true) :
    (∃ db' rows,
       bulk_assign_notifications_to_users db d =
         .ok (db', rows,
           ((bulkCandidates d).filter
             (fun p => hasPair db.user_notifications p.1 p.2)).length) ∧
       rows.map pairKey = (bulkCandidates d).filter
         (fun p => !hasPair db.user_notifications p.1 p.2) ∧
       db'.user_notifications = db.user_notifications ++ rows) ∧
    (bulk_assign_notifications_to_users exampleDB ⟨[1, 2], [10, 11]⟩ =
       .ok ({ exampleDB with
              user_notifications := [⟨0, 10, 1, false, none⟩, ⟨1, 10, 2, false, none⟩,
                ⟨2, 11, 1, false, none⟩, ⟨3, 11, 2, false, none⟩],
              next_id := 4 },
            [⟨1, 10, 2, false, none⟩, ⟨2, 11, 1, false, none⟩,
             ⟨3, 11, 2, false, none⟩],
            1) ∧
     ([⟨1, 10, 2, false, none⟩, ⟨2, 11, 1, false, none⟩,
       ⟨3, 11, 2, false, none⟩] : List UserNotification).length = 3) := by
  constructor
  · simp only [bulkCandidates]
    simp only [bulk_assign_notifications_to_users,
      bulk_assign_notifications_to_users_at]
    rw [missing_notification_ids_eq db d.notification_ids]
    have h1 : d.notification_ids.filter (fun nid => !notifExists db nid) = [] := by
      apply List.filter_eq_nil_iff.mpr
      intro nid hnid
      simp [hns nid hnid]
    rw [h1, if_neg (not_not_intro rfl)]
    rw [missing_user_ids_eq db d.user_ids]
    have h2 : d.user_ids.filter (fun uid => !userExists db uid) = [] := by
      apply List.filter_eq_nil_iff.mpr
      intro uid huid
      simp [hus uid huid]
    rw [h2, if_neg (not_not_intro rfl)]
    rw [bulkLoop_eq]
    dsimp only
    have hp12 : ∀ p ∈ d.user_ids.flatMap
        (fun u => d.notification_ids.map (fun n => (u, n))),
        p.1 ∈ d.user_ids ∧ p.2 ∈ d.notification_ids := by
      intro p hp
      obtain ⟨u, hu, hpm⟩ := List.mem_flatMap.mp hp
      obtain ⟨n, hn2, heq⟩ := List.mem_map.mp hpm
      constructor
      · rw [← heq]; exact hu
      · rw [← heq]; exact hn2
    have hconvA : (d.user_ids.flatMap
        (fun u => d.notification_ids.map (fun n => (u, n)))).filter
        (fun p => !((db.user_notifications.filter (fun r =>
          d.notification_ids.contains r.notification_id &&
          d.user_ids.contains r.user_id)).map pairKey).contains p) =
      (d.user_ids.flatMap (fun u => d.notification_ids.map (fun n => (u, n)))).filter
        (fun p => !hasPair db.user_notifications p.1 p.2) := by
      apply List.filter_congr
      intro p hp
      rw [existing_pairs_contains db.user_notifications d.notification_ids
        d.user_ids p (hp12 p hp).1 (hp12 p hp).2]
    have hconvB : (d.user_ids.flatMap
        (fun u => d.notification_ids.map (fun n => (u, n)))).filter
        (fun p => ((db.user_notifications.filter (fun r =>
          d.notification_ids.contains r.notification_id &&
          d.user_ids.contains r.user_id)).map pairKey).contains p) =
      (d.user_ids.flatMap (fun u => d.notification_ids.map (fun n => (u, n)))).filter
        (fun p => hasPair db.user_notifications p.1 p.2) := by
      apply List.filter_congr
      intro p hp
      rw [existing_pairs_contains db.user_notifications d.notification_ids
        d.user_ids p (hp12 p hp).1 (hp12 p hp).2]
    rw [hconvA, hconvB]
    have hcandNodup : ((d.user_ids.flatMap
        (fun u => d.notification_ids.map (fun n => (u, n)))).filter
        (fun p => !hasPair db.user_notifications p.1 p.2)).Nodup :=
      (nodup_cross d.user_ids d.notification_ids hud hnd).filter _
    have hfresh : ∀ r ∈ mkRows db.next_id ((d.user_ids.flatMap
        (fun u => d.notification_ids.map (fun n => (u, n)))).filter
        (fun p => !hasPair db.user_notifications p.1 p.2)),
        hasPair db.user_notifications r.user_id r.notification_id = false := by
      intro r hr
      have h0 := List.mem_map_of_mem pairKey hr
      rw [mkRows_map_pairKey] at h0
      have hnp := (List.mem_filter.mp h0).2
      rw [Bool.not_eq_true'] at hnp
      exact hnp
    have hnd2 : ((mkRows db.next_id ((d.user_ids.flatMap
        (fun u => d.notification_ids.map (fun n => (u, n)))).filter
        (fun p => !hasPair db.user_notifications p.1 p.2))).map pairKey).Nodup := by
      rw [mkRows_map_pairKey]
      exact hcandNodup
    rw [commitInserts_succeeds _ db.user_notifications hfresh hnd2]
    exact ⟨_, _, rfl, by rw [mkRows_map_pairKey], rfl⟩
  · exact ⟨by decide, by decide⟩

theorem bulk_assign_cross_product_delta_witness :
    ∃ db' rows,
      bulk_assign_notifications_to_users exampleDB ⟨[1, 2], [10, 11]⟩ =
        .ok (db', rows,
          ((bulkCandidates ⟨[1, 2], [10, 11]⟩).filter
            (fun p => hasPair exampleDB.user_notifications p.1 p.2)).length) ∧
      rows.map pairKey = (bulkCandidates ⟨[1, 2], [10, 11]⟩).filter
        (fun p => !hasPair exampleDB.user_notifications p.1 p.2) ∧
      db'.user_notifications = exampleDB.user_notifications ++ rows :=
  (bulk_assign_cross_product_delta exampleDB ⟨[1, 2], [10, 11]⟩
    (by decide) (by decide) (by decide) (by decide)).1

lemma sum_filter_ne_zero (l : List (NotificationType × Nat)) :
    ((l.filter (fun p => p.2 != 0)).map (fun p => p.2)).sum =
      (l.map (fun p => p.2)).sum := by
  induction l with
  | nil => rfl
  | cons x rest ih =>
    by_cases hx : x.2 = 0
    · simp [List.filter_cons, hx, ih]
    · simp [List.filter_cons, hx, ih]

lemma sum_countP_types (l : List (UserNotification × Notification)) :
    (NotificationType.all.map
      (fun t => l.countP (fun p => p.2.type == t))).sum = l.length := by
  induction l with
  | nil => simp [NotificationType.all]
  | cons x rest ih =>
    simp only [NotificationType.all, List.map_cons, List.map_nil,
      List.sum_cons, List.sum_nil, List.countP_cons] at ih ⊢
    cases htype : x.2.type <;> simp [htype] <;> omega

lemma filterMap_join_length (notifs : List Notification) (u : Nat) :
    ∀ store : List UserNotification,
    (∀ r ∈ store, (r.user_id == u && r.is_read == false) = true →
       (notifs.find? (fun n => n.id == r.notification_id)).isSome = true) →
    (store.filterMap (fun r =>
        if r.user_id == u && r.is_read == false then
          match notifs.find? (fun n => n.id == r.notification_id) with
          | some n => some (r, n)
          | none => none
        else none)).length =
      (store.filter (fun r => r.user_id == u && r.is_read == false)).length := by
  intro store
  induction store with
  | nil => intro _; rfl
  | cons x rest ih =>
    intro hfk
    have hx := hfk x (List.mem_cons_self x rest)
    have hrest : ∀ r ∈ rest, (r.user_id == u && r.is_read == false) = true →
        (notifs.find? (fun n => n.id == r.notification_id)).isSome = true :=
      fun r hr h => hfk r (List.mem_cons_of_mem _ hr) h
    simp only [List.filterMap_cons, List.filter_cons]
    cases hcond : (x.user_id == u && x.is_read == false) with
    | false =>
      exact ih hrest
    | true =>
      have hx' := hx hcond
      cases hfind : notifs.find? (fun n => n.id == x.notification_id) with
      | none =>
        rw [hfind] at hx'
        cases hx'
      | some n =>
        rw [if_pos (rfl : (true : Bool) = true)]
        rw [if_pos (rfl : (true : Bool) = true)]
        dsimp only
        rw [List.length_cons, List.length_cons, ih hrest]

lemma unreadJoined_length (db : DB) (u : Nat)
    (hfk : ∀ r ∈ db.user_notifications, (r.user_id == u && r.is_read == false) = true →
       (db.notifications.find? (fun n => n.id == r.notification_id)).isSome = true) :
    (unreadJoined db u).length =
      (db.user_notifications.filter
        (fun r => r.user_id == u && r.is_read == false)).length :=
  filterMap_join_length db.notifications u db.user_notifications hfk

/-- C7: per-user statistics are internally consistent.  `read_count` is
derived as `total − unread` (and `unread ≤ total`, so the subtraction is
exact), `unread_by_type` contains only types with a non-zero unread count, and
— provided every unread join row's notification exists (the foreign-key
invariant the inner join relies on) — the values of `unread_by_type` sum to
`unread_count`. -/
theorem user_stats_consistency (db : DB) (u : Nat)
    (hfk : ∀ r ∈ db.user_notifications,
      (r.user_id == u && r.is_read == false) = true →
      (db.notifications.find? (fun n => n.id == r.notification_id)).isSome = true) :
    (get_user_notification_stats db u).read_count =
      (get_user_notification_stats db u).total_notifications -
        (get_user_notification_stats db u).unread_count ∧
    (get_user_notification_stats db u).unread_count ≤
      (get_user_notification_stats db u).total_notifications ∧
    (∀ p ∈ (get_user_notification_stats db u).unread_by_type, p.2 ≠ 0) ∧
    ((get_user_notification_stats db u).unread_by_type.map (fun p => p.2)).sum =
      (get_user_notification_stats db u).unread_count := by
  refine ⟨rfl, ?_, ?_, ?_⟩
  · show (db.user_notifications.filter
        (fun r => r.user_id == u && r.is_read == false)).length ≤
      (db.user_notifications.filter (fun r => r.user_id == u)).length
    rw [← List.countP_eq_length_filter, ← List.countP_eq_length_filter]
    apply List.countP_mono_left
    intro r _ h
    exact ((Bool.and_eq_true _ _).mp h).1
  · intro p hp
    have hne := (List.mem_filter.mp hp).2
    simpa using hne
  · show ((((NotificationType.all.map (fun t => (t, (unreadJoined db u).countP
        (fun p => p.2.type == t)))).filter (fun p => p.2 != 0)).map
        (fun p => p.2)).sum =
      (db.user_notifications.filter
        (fun r => r.user_id == u && r.is_read == false)).length)
    rw [sum_filter_ne_zero]
    rw [List.map_map]
    have h1 : ((fun (p : NotificationType × Nat) => p.2) ∘
        (fun t => (t, (unreadJoined db u).countP (fun p => p.2.type == t)))) =
      fun t => (unreadJoined db u).countP (fun p => p.2.type == t) := rfl
    rw [h1]
    rw [sum_countP_types]
    exact unreadJoined_length db u hfk

theorem user_stats_consistency_witness :
    (∀ r ∈ exampleDB.user_notifications,
      (r.user_id == 10 && r.is_read == false) = true →
      (exampleDB.notifications.find? (fun n => n.id == r.notification_id)).isSome
        = true) ∧
    ((get_user_notification_stats exampleDB 10).read_count =
      (get_user_notification_stats exampleDB 10).total_notifications -
        (get_user_notification_stats exampleDB 10).unread_count ∧
    (get_user_notification_stats exampleDB 10).unread_count ≤
      (get_user_notification_stats exampleDB 10).total_notifications ∧
    (∀ p ∈ (get_user_notification_stats exampleDB 10).unread_by_type, p.2 ≠ 0) ∧
    ((get_user_notification_stats exampleDB 10).unread_by_type.map
      (fun p => p.2)).sum =
      (get_user_notification_stats exampleDB 10).unread_count) :=
  ⟨by decide, user_stats_consistency exampleDB 10 (by decide)⟩
